import Mathlib

/-!
# Verification of the s3-explorer listing and bulk-transfer engine

Shallow embedding of the core logic of the `s3-explorer` repository:
the `s3client` wrapper (`s3client/client.go` and its fallback-pager
revision), the progress tracker (`ui/progress.go`) and the bulk
upload/download/delete/copy orchestration in the objects view.

Go strings are embedded as Lean `String`; byte counts and sizes
(`int64` in Go, always small and non-negative here) as `Nat`;
`int`/`int32` index arithmetic as `Int`, with two's-complement
truncation to 32 bits made explicit (`wrap32`) where the Go code
converts to `int32`.  Fallible Go functions returning `(T, error)`
are embedded as `Except String T`.
-/

namespace S3Explorer

/-- `S3Object` from `s3client` (client.go): one browsable item. -/
structure S3Obj where
  name : String
  key : String
  isFolder : Bool
  size : Nat
  lastModified : String
deriving DecidableEq, Repr

/-! ## String helpers (Go `strings` / `path/filepath` functions) -/

/-- Go `strings.HasPrefix`. -/
def strHasPrefix (s pre : String) : Bool :=
  pre.data.isPrefixOf s.data

/-- Go `strings.HasSuffix`. -/
def strHasSuffix (s suffix : String) : Bool :=
  suffix.data.isSuffixOf s.data

/-- Go `strings.TrimPrefix`. -/
def trimPrefix (s pre : String) : String :=
  if strHasPrefix s pre then String.mk (s.data.drop pre.data.length) else s

/-- Go `strings.TrimSuffix`. -/
def trimSuffix (s suffix : String) : String :=
  if strHasSuffix s suffix then
    String.mk (s.data.take (s.data.length - suffix.data.length))
  else s

/-- Substring test on the character lists (Go `strings.Contains`). -/
def strContains (s sub : String) : Bool :=
  decide (sub.data <:+: s.data)

/-! ## Display sort (`ListAllObjectsUnderPrefix`, part_002 lines 342-353)

The Go code sorts with `sort.Slice` and the comparator
`less i j := (folder_i ∧ ¬folder_j) ∨ (folder_i = folder_j ∧ name_i < name_j)`;
a list is sorted for `sort.Slice` exactly when it is sorted for the
reflexive total closure of that comparator, which is `dispLe` below. -/

/-- Lexicographic comparison of codepoint lists: the order Go's byte-wise
string `<` induces on UTF-8 strings (UTF-8 preserves codepoint order). -/
def charListLe : List Char → List Char → Bool
  | [], _ => true
  | _ :: _, [] => false
  | a :: as, b :: bs =>
    if a.toNat < b.toNat then true
    else if b.toNat < a.toNat then false
    else charListLe as bs

/-- Ordinal (byte-wise) `≤` on strings, as Go compares them. -/
def goStrLe (a b : String) : Bool :=
  charListLe a.data b.data

/-- The total preorder realised by the source's display comparator:
folders strictly before files, and inside one group ordinal `≤` on names. -/
def dispLe (a b : S3Obj) : Prop :=
  (a.isFolder = true ∧ b.isFolder = false) ∨
    (a.isFolder = b.isFolder ∧ goStrLe a.name b.name = true)

instance : DecidableRel dispLe := fun a b => by
  unfold dispLe; infer_instance

/-- The sort performed at the end of `ListAllObjectsUnderPrefix`:
folders first, each group ascending by name. -/
def sortDisplayObjects (l : List S3Obj) : List S3Obj :=
  l.insertionSort dispLe

/-! ## The store and the delimiter-less full listing (client.go, lines 226-256)

A `StoredObject` is one object of the remote store (`Contents` element of a
`ListObjectsV2` answer): key, size and formatted last-modified time.
The ListObjectsV2 paginator is embedded abstractly as the list of pages it
yields; its S3 contract is that the concatenation of the pages' contents is
exactly the objects of the store whose key carries the requested prefix. -/

structure StoredObject where
  key : String
  size : Nat
  lastModified : String
deriving DecidableEq, Repr

/-- The entry `ListAllObjectsUnderPrefix` (client.go) builds from a content
key: `Name` is the full key, `IsFolder` is always false. -/
def toFileEntry (o : StoredObject) : S3Obj :=
  { name := o.key, key := o.key, isFolder := false, size := o.size,
    lastModified := o.lastModified }

/-- Loop body of the contents loop of `ListAllObjectsUnderPrefix` (client.go):
the content is appended unless it is a zero-byte placeholder whose key ends
in the delimiter. -/
def fullStep (acc : List S3Obj) (o : StoredObject) : List S3Obj :=
  if strHasSuffix o.key "/" && o.size == 0 then acc else acc ++ [toFileEntry o]

/-- One page of the delimiter-less paginator loop of
`ListAllObjectsUnderPrefix` (client.go). -/
def processFullPage (acc : List S3Obj) (page : List StoredObject) : List S3Obj :=
  page.foldl fullStep acc

/-- `S3Client.ListAllObjectsUnderPrefix` of client.go: delimiter-less listing,
paginated to exhaustion, placeholder markers skipped. -/
def listAllObjectsUnderPrefixFull (pages : List (List StoredObject)) : List S3Obj :=
  pages.foldl processFullPage []

/-- Store used to exercise the recursive expander: a folder `f/` holding a
placeholder marker, a direct file, a nested subfolder marker and a nested
file, plus an unrelated key outside the prefix. -/
def c3Store : List StoredObject :=
  [⟨"f/", 0, "t0"⟩, ⟨"f/a.txt", 3, "t1"⟩, ⟨"f/sub/", 0, "t2"⟩,
   ⟨"f/sub/b.txt", 5, "t3"⟩, ⟨"x.txt", 7, "t4"⟩]

/-- A two-page pagination of everything under `f/` in `c3Store`. -/
def c3Pages : List (List StoredObject) :=
  [[⟨"f/", 0, "t0"⟩, ⟨"f/a.txt", 3, "t1"⟩],
   [⟨"f/sub/", 0, "t2"⟩, ⟨"f/sub/b.txt", 5, "t3"⟩]]

/-! ## Delimiter listing and the fallback pager (part_002, lines 103-183 and 278-356)

The revision of the client kept alongside client.go lists with delimiter `/`:
each page carries `CommonPrefixes` (candidate folders) and `Contents`.
`ListObjects` of that revision is the fallback pager: it re-enumerates
everything, re-groups folders before files, and slices `pageSize`-wide
windows addressed by a `"page_<n>"` marker. -/

/-- One page of a delimiter-based `ListObjectsV2` answer. -/
structure DelimPage where
  commonPrefixes : List String
  contents : List StoredObject
deriving DecidableEq, Repr

/-- CommonPrefixes loop body of `ListAllObjectsUnderPrefix` (part_002):
skip already-processed keys, strip the trailing delimiter and the leading
prefix to obtain the display name. -/
def delimPrefixStep (pre : String) (st : List String × List S3Obj) (fullKey : String) :
    List String × List S3Obj :=
  if fullKey ∈ st.1 then st
  else
    let name0 := trimSuffix fullKey "/"
    let name := if pre ≠ "" then trimPrefix name0 pre else name0
    (fullKey :: st.1,
     st.2 ++ [{ name := name, key := fullKey, isFolder := true, size := 0, lastModified := "" }])

/-- Contents loop body of `ListAllObjectsUnderPrefix` (part_002): skip
already-processed keys and zero-byte placeholder objects, strip the prefix. -/
def delimContentStep (pre : String) (st : List String × List S3Obj) (o : StoredObject) :
    List String × List S3Obj :=
  if o.key ∈ st.1 then st
  else
    let seen := o.key :: st.1
    if strHasSuffix o.key "/" && o.size == 0 then (seen, st.2)
    else
      (seen,
       st.2 ++ [{ name := trimPrefix o.key pre, key := o.key, isFolder := false,
                  size := o.size, lastModified := o.lastModified }])

/-- One paginator page of `ListAllObjectsUnderPrefix` (part_002):
CommonPrefixes first, then Contents. -/
def processDelimPage (pre : String) (st : List String × List S3Obj) (page : DelimPage) :
    List String × List S3Obj :=
  page.contents.foldl (delimContentStep pre) (page.commonPrefixes.foldl (delimPrefixStep pre) st)

/-- `S3Client.ListAllObjectsUnderPrefix` of the part_002 revision: paginate to
exhaustion with delimiter `/`, then sort folders first, names ascending. -/
def listAllObjectsUnderPrefixDelim (pre : String) (pages : List DelimPage) : List S3Obj :=
  sortDisplayObjects (pages.foldl (processDelimPage pre) ([], [])).2

/-- Two's-complement truncation to 32 bits: the effect of Go's conversion to
`int32` and of `int32` arithmetic overflow. -/
def wrap32 (z : Int) : Int :=
  (z + 2 ^ 31) % 2 ^ 32 - 2 ^ 31

/-- Decimal digit value of a character. -/
def digitVal (c : Char) : Option Nat :=
  if '0' ≤ c ∧ c ≤ '9' then some (c.toNat - '0'.toNat) else none

/-- Longest decimal-digit prefix, read into an accumulator. -/
def parseDigitsAux : List Char → Nat → Nat
  | [], acc => acc
  | c :: rest, acc =>
    match digitVal c with
    | some d => parseDigitsAux rest (acc * 10 + d)
    | none => acc

/-- `fmt.Sscanf(marker, "page_%d", &page)` of part_002's `ListObjects`: the
literal `page_` followed by decimal digits; when the scan fails, `page` keeps
its zero value. -/
def parsePageMarker (marker : String) : Int :=
  if strHasPrefix marker "page_" then parseDigitsAux (marker.data.drop 5) 0 else 0

/-- Paging core of `S3Client.ListObjects` (part_002, lines 103-183) given the
full enumeration: re-group folders before files, then either return the first
window (empty marker) or parse the `page_<n>` marker and slice.  `int32`
conversions and arithmetic wrap via `wrap32`; `none` is a Go slice-bounds
panic. -/
def listObjectsSlice (allObjects0 : List S3Obj) (marker : String) (pageSize : Int) :
    Option (List S3Obj × Option String) :=
  let folders := allObjects0.filter (fun o => o.isFolder)
  let files := allObjects0.filter (fun o => !o.isFolder)
  let allObjects := folders ++ files
  let lenI : Int := wrap32 allObjects.length
  if marker = "" then
    if lenI ≤ pageSize then some (allObjects, none)
    else if 0 ≤ pageSize ∧ pageSize ≤ (allObjects.length : Int) then
      some (allObjects.take pageSize.toNat, some "page_2")
    else none
  else
    let page := parsePageMarker marker
    let startIndex := wrap32 (wrap32 (page - 1) * pageSize)
    if lenI ≤ startIndex then some ([], none)
    else
      let endIndex0 := wrap32 (startIndex + pageSize)
      let endIndex := if lenI < endIndex0 then lenI else endIndex0
      if 0 ≤ startIndex ∧ startIndex ≤ endIndex ∧ endIndex ≤ (allObjects.length : Int) then
        some ((allObjects.drop startIndex.toNat).take (endIndex - startIndex).toNat,
          if endIndex < lenI then some ("page_" ++ toString (page + 1)) else none)
      else none

/-- `S3Client.ListObjects` of the part_002 revision: full enumeration (via the
delimiter listing), then slice. -/
def listObjectsFallback (pre : String) (pages : List DelimPage) (marker : String)
    (pageSize : Int) : Option (List S3Obj × Option String) :=
  listObjectsSlice (listAllObjectsUnderPrefixDelim pre pages) marker pageSize

/-- The five-entry store of the paging scenario: folders `B`, `D` and files
`A`, `C`, `E` at the bucket root. -/
def c2Pages : List DelimPage :=
  [⟨["B/", "D/"], [⟨"A", 1, "tA"⟩, ⟨"C", 2, "tC"⟩, ⟨"E", 3, "tE"⟩]⟩]

def c2B : S3Obj := ⟨"B", "B/", true, 0, ""⟩

def c2D : S3Obj := ⟨"D", "D/", true, 0, ""⟩

def c2A : S3Obj := ⟨"A", "A", false, 1, "tA"⟩

def c2C : S3Obj := ⟨"C", "C", false, 2, "tC"⟩

def c2E : S3Obj := ⟨"E", "E", false, 3, "tE"⟩

/-! ## The operative folder expansion for download/copy totals

part_009 calls `ObjectExists`, `CopyObject` and `ListAllKeysUnderPrefix`,
which exist only in the part_002 client revision, so the expansion it invokes
at the download folder scan (lines 2971-2991) and at `copyFolderRecursive`
(line 3426) is part_002's delimiter-based `ListAllObjectsUnderPrefix` — even
though that function's own doc comment promises a recursive listing of
everything under the prefix.  To evaluate that call site on a concrete store
we also embed the store side: S3's answer to a `Delimiter = "/"` listing. -/

/-- The first segment of a key remainder up to and including the delimiter,
when the remainder contains one: the grouping S3 performs for
`Delimiter = "/"`. -/
def splitAtSlash : List Char → Option (List Char)
  | [] => none
  | c :: rest => if c = '/' then some ['/'] else (splitAtSlash rest).map (fun seg => c :: seg)

/-- S3's one-page `ListObjectsV2` answer for `Prefix = pre, Delimiter = "/"`
over a store: keys under the prefix whose remainder holds no delimiter are
`Contents`; the rest are folded into deduplicated `CommonPrefixes`. -/
def delimAnswer (store : List StoredObject) (pre : String) : DelimPage :=
  { commonPrefixes :=
      (store.filterMap fun o =>
        if strHasPrefix o.key pre then
          (splitAtSlash (o.key.data.drop pre.data.length)).map
            (fun seg => pre ++ String.mk seg)
        else none).eraseDups
    contents :=
      store.filter fun o =>
        strHasPrefix o.key pre && (splitAtSlash (o.key.data.drop pre.data.length)).isNone }

/-- The folder scan of `startDownloadProcess` (part_009 lines 2971-2991)
against the operative part_002 client: list the folder key with the delimiter
client and keep only the file entries (`if !fo.IsFolder`); their sizes are
what accumulates into `totalDownloadSize` and `filesToDownload`. -/
def downloadScanFolderFiles (folderKey : String) (pages : List DelimPage) : List S3Obj :=
  (listAllObjectsUnderPrefixDelim folderKey pages).filter (fun fo => !fo.isFolder)

/-! ## Existence probe (`ObjectExists`, part_002 lines 397-430) -/

/-- The error of a failed HeadObject call: whether it is the typed
`NoSuchKey` error, and its rendered message. -/
structure HeadErr where
  isNoSuchKey : Bool
  msg : String
deriving DecidableEq, Repr

/-- `S3Client.ObjectExists`: empty keys are reported absent outright; a
successful HEAD (`resp = none`) means the object exists; a failed HEAD is
classified by its message: 404/NotFound and 400/BadRequest both mean
"does not exist, no error", anything else is surfaced as an error. -/
def objectExists (key : String) (resp : Option HeadErr) : Except String Bool :=
  if key = "" then .ok false
  else
    match resp with
    | none => .ok true
    | some e =>
      if e.isNoSuchKey then .ok false
      else if strContains e.msg "404" || strContains e.msg "NotFound" then .ok false
      else if strContains e.msg "400" || strContains e.msg "BadRequest" then .ok false
      else .error e.msg

/-! ## Name resolution (part_009: `findAvailableObjectKey` lines 2714-2738,
`findAvailableFolderName` lines 3369-3410)

The existence probes are abstracted as functions of the key; the Go loops are
unbounded, so the embeddings carry fuel, `.ok none` marking exhaustion. -/

/-- `filepath.Ext` scan: walk the reversed characters; the extension starts at
the last dot of the last path element. -/
def extAux : List Char → List Char → Option (List Char)
  | [], _ => none
  | c :: rest, acc =>
    if c = '.' then some ('.' :: acc)
    else if c = '/' then none
    else extAux rest (c :: acc)

/-- Go `filepath.Ext`. -/
def filepathExt (s : String) : String :=
  match extAux s.data.reverse [] with
  | some l => String.mk l
  | none => ""

/-- `keyWithoutExt := strings.TrimSuffix(s3Key, ext)`. -/
def keyBase (s3Key : String) : String :=
  trimSuffix s3Key (filepathExt s3Key)

/-- `fmt.Sprintf("%s(%d)%s", keyWithoutExt, i, ext)`. -/
def numberedKey (base : String) (i : Nat) (ext : String) : String :=
  base ++ "(" ++ toString i ++ ")" ++ ext

/-- The unbounded probe loop of `findAvailableObjectKey`, with fuel. -/
def findAvailableObjectKeyLoop (probe : String → Except String Bool) (base ext : String) :
    Nat → Nat → Except String (Option String)
  | _, 0 => .ok none
  | i, fuel + 1 =>
    let newKey := numberedKey base i ext
    match probe newKey with
    | .error e => .error e
    | .ok true => findAvailableObjectKeyLoop probe base ext (i + 1) fuel
    | .ok false => .ok (some newKey)

/-- `ObjectsView.findAvailableObjectKey`: return the key itself when free,
otherwise probe `base(1)ext, base(2)ext, …` for the first free name. -/
def findAvailableObjectKey (probe : String → Except String Bool) (s3Key : String)
    (fuel : Nat) : Except String (Option String) :=
  match probe s3Key with
  | .error e => .error e
  | .ok false => .ok (some s3Key)
  | .ok true => findAvailableObjectKeyLoop probe (keyBase s3Key) (filepathExt s3Key) 1 fuel

/-- The unbounded probe loop of `findAvailableFolderName`, with fuel. -/
def findAvailableFolderNameLoop (listAll : String → Except String (List S3Obj))
    (objExists : String → Except String Bool) (pre baseName : String) :
    Nat → Nat → Except String (Option String)
  | _, 0 => .ok none
  | i, fuel + 1 =>
    let newName := baseName ++ "(" ++ toString i ++ ")"
    let destKeyPrefix := pre ++ newName ++ "/"
    match listAll destKeyPrefix with
    | .error e => .error e
    | .ok objs =>
      match objExists destKeyPrefix with
      | .error e => .error e
      | .ok fex =>
        if objs.length = 0 ∧ fex = false then .ok (some newName)
        else findAvailableFolderNameLoop listAll objExists pre baseName (i + 1) fuel

/-- `ObjectsView.findAvailableFolderName`: a folder name is free when the
listing under `prefix+name+/` is empty and no marker object
`prefix+name+/` exists; otherwise probe `name(1), name(2), …`. -/
def findAvailableFolderName (listAll : String → Except String (List S3Obj))
    (objExists : String → Except String Bool) (pre baseName : String) (fuel : Nat) :
    Except String (Option String) :=
  let destKeyPrefix := pre ++ baseName ++ "/"
  match listAll destKeyPrefix with
  | .error e => .error e
  | .ok objs =>
    match objExists destKeyPrefix with
    | .error e => .error e
    | .ok fex =>
      if objs.length = 0 ∧ fex = false then .ok (some baseName)
      else findAvailableFolderNameLoop listAll objExists pre baseName 1 fuel

/-! ## Upload batch and the shared progress counter
(ui/progress.go lines 44-61, part_009 lines 2111-2135 and 2892-2919) -/

/-- `ProgressTracker.Read`: after the wrapped reader returns `n` bytes, `n` is
added atomically to the shared transferred-byte counter whenever `n > 0` —
at read time, independent of whether the enclosing operation will succeed. -/
def progressTrackerRead (counter : Nat) (n : Nat) : Nat :=
  if 0 < n then counter + n else counter

/-- The counter after a sequence of reads through the tracker. -/
def trackReads (counter : Nat) (reads : List Nat) : Nat :=
  reads.foldl progressTrackerRead counter

/-- One file of an upload batch: the base name used in failure records, and
the byte count of the content read into memory (`actualFileSize`). -/
structure UploadFileItem where
  baseName : String
  size : Nat
deriving DecidableEq, Repr

/-- Behaviour of one `PutObject` call: on success the SDK consumes the whole
in-memory body through the tracker (its reads total exactly `size`); on a
network error it has consumed some prefix of the body, given by the reads it
performed before failing. -/
inductive PutOutcome where
  | success
  | failure (readsBeforeError : List Nat) (msg : String)
deriving DecidableEq, Repr

/-- Bytes the SDK read from an item's tracker-wrapped reader. -/
def putBytesRead (it : UploadFileItem) : PutOutcome → Nat
  | .success => it.size
  | .failure reads _ => reads.sum

def isPutFailure : PutOutcome → Bool
  | .success => false
  | .failure _ _ => true

/-- `ObjectsView.uploadSingleFile`: the body is read into memory, wrapped in a
`ProgressTracker` sharing the batch counter, and handed to `UploadObject`;
the counter advances by every read the SDK performs, and the error (if any)
is returned to the worker. -/
def uploadSingleFile (counter : Nat) (it : UploadFileItem) (outcome : PutOutcome) :
    Nat × Option String :=
  match outcome with
  | .success => (trackReads counter [it.size], none)
  | .failure reads msg => (trackReads counter reads, some msg)

/-- The file-upload worker loop of `startUploadProcess` (one linearisation of
the 10-worker pool): each item is uploaded; on failure its base name is
appended to `failedUploads` and the worker continues. -/
def runUploadBatch (counter : Nat) (failed : List String) :
    List (UploadFileItem × PutOutcome) → Nat × List String
  | [] => (counter, failed)
  | (it, outcome) :: rest =>
    match uploadSingleFile counter it outcome with
    | (counter', none) => runUploadBatch counter' failed rest
    | (counter', some _) => runUploadBatch counter' (failed ++ [it.baseName]) rest

/-- A batch of three uploads where only item 2 fails (network error reported
after the SDK consumed its 50-byte body). -/
def c1Items : List (UploadFileItem × PutOutcome) :=
  [(⟨"file1", 100⟩, .success),
   (⟨"file2", 50⟩, .failure [50] "network error"),
   (⟨"file3", 200⟩, .success)]

/-! ## Batch worker loops and failure collection
(part_009: upload workers 2892-2919, download workers 3039-3053, delete batch
2537-2566, `deleteFolderAndContents` 3453-3507) -/

/-- The common worker-loop shape of the upload/download/delete batches (one
linearisation of the worker pool): every queued item is processed; a failed
item's name goes to the synchronized failure list and processing continues. -/
def runWorkerLoop {α : Type} (run : α → Option String) (nameOf : α → String) :
    List α → List α × List String
  | [] => ([], [])
  | it :: rest =>
    let st := runWorkerLoop run nameOf rest
    match run it with
    | some _ => (it :: st.1, nameOf it :: st.2)
    | none => (it :: st.1, st.2)

/-- Delete loop of `deleteFolderAndContents`: every key is attempted; only the
first error is stored in `deletionErrors` (the rest are just logged). -/
def deleteLoopAux (del : String → Option String) :
    List String → List String × List String → List String × List String
  | [], st => st
  | key :: rest, st =>
    let errs := match del key with
      | some e => if st.2.length = 0 then st.2 ++ [e] else st.2
      | none => st.2
    deleteLoopAux del rest (st.1 ++ [key], errs)

/-- `ObjectsView.deleteFolderAndContents`: list every key under the prefix
(failure aborts with an error), append the folder marker itself, attempt each
deletion, and fail the folder item iff any constituent deletion failed.
Returns the attempted keys and whether the item is reported failed. -/
def deleteFolderAndContents (listKeysRes : Except String (List String)) (pre : String)
    (del : String → Option String) : Except String (List String × Bool) :=
  match listKeysRes with
  | .error e => .error e
  | .ok keys =>
    let keysToDelete := keys ++ [pre]
    let st := deleteLoopAux del keysToDelete ([], [])
    .ok (st.1, st.2.length > 0)

/-! ## Scan-phase gating (part_009: upload 2740-2852, download 2942-3022) -/

/-- Operations on the store or the local filesystem performed by the execute
phase of a batch. -/
inductive StoreAction where
  | createFolder (key : String)
  | putObject (key : String)
  | getObject (key : String)
  | mkdirAll (path : String)
  | createLocalFile (path : String)
deriving DecidableEq, Repr

/-- Outcome of scanning one dropped local path in `startUploadProcess`:
a scan error (stat/walk/name-resolution failure), a resolved single file, or
a walked folder (marker keys to create plus contained files). -/
inductive UploadScanResult where
  | err (msg : String)
  | file (s3Key : String) (size : Nat)
  | folder (folderKeys : List String) (files : List (String × Nat))
deriving DecidableEq, Repr

/-- Accumulation of one scan outcome into
`(scanErrors, foldersToCreate, filesToUpload)`. -/
def uploadScanStep (st : List String × List String × List (String × Nat)) :
    UploadScanResult → List String × List String × List (String × Nat)
  | .err msg => (st.1 ++ [msg], st.2.1, st.2.2)
  | .file key size => (st.1, st.2.1, st.2.2 ++ [(key, size)])
  | .folder fkeys files => (st.1, st.2.1 ++ fkeys, st.2.2 ++ files)

/-- Scan phase of `startUploadProcess` over the dropped paths. -/
def uploadScan (results : List UploadScanResult) :
    List String × List String × List (String × Nat) :=
  results.foldl uploadScanStep ([], [], [])

/-- Execute phase of `startUploadProcess`: aborted outright when the scan
collected any error, a no-op when nothing was found, otherwise the folder
markers are created and every file is put. -/
def startUploadActions (results : List UploadScanResult) : List StoreAction :=
  let st := uploadScan results
  if st.1.length > 0 then []
  else if st.2.2.length = 0 ∧ st.2.1.length = 0 then []
  else st.2.1.map StoreAction.createFolder ++ st.2.2.map (fun f => StoreAction.putObject f.1)

/-- Outcome of scanning one selected entry in `startDownloadProcess`: a folder
enumeration error, or the file-level items (S3 key, local path) it yields. -/
inductive DownloadScanResult where
  | err (msg : String)
  | files (fs : List (String × String))
deriving DecidableEq, Repr

def downloadScanStep (st : List String × List (String × String)) :
    DownloadScanResult → List String × List (String × String)
  | .err msg => (st.1 ++ [msg], st.2)
  | .files fs => (st.1, st.2 ++ fs)

/-- Scan phase of `startDownloadProcess` over the selected entries. -/
def downloadScan (results : List DownloadScanResult) :
    List String × List (String × String) :=
  results.foldl downloadScanStep ([], [])

/-- Execute phase of `startDownloadProcess`: aborted outright on any scan
error, a no-op when nothing was found, otherwise each file is fetched and
written locally (`downloadFile`: MkdirAll, Create, GetObject, copy). -/
def startDownloadActions (results : List DownloadScanResult) : List StoreAction :=
  let st := downloadScan results
  if st.1.length > 0 then []
  else if st.2.length = 0 then []
  else st.2.flatMap (fun f => [.mkdirAll f.2, .createLocalFile f.2, .getObject f.1])

/-! ## Folder copy (part_009: `copyFolderRecursive` 3412-3450,
`pasteS3Objects` 3250-3325) -/

/-- `ObjectsView.copyFolderRecursive`: resolve a fresh destination folder name
(failure is an error), list the source folder (failure is an error), then
copy every constituent to its relative path under the new root — an
individual `CopyObject` error is only logged, so the returned value never
depends on `copyRes`.  Returns the attempted (source, target) pairs. -/
def copyFolderRecursive (resolveRes : Except String String)
    (listRes : Except String (List S3Obj)) (copyRes : String → Option String)
    (pre folderKey : String) : Except String (List (String × String)) :=
  match resolveRes with
  | .error e => .error e
  | .ok availableName =>
    let newFolderKey := pre ++ availableName ++ "/"
    match listRes with
    | .error e => .error e
    | .ok objs =>
      .ok (objs.map fun obj => (obj.key, newFolderKey ++ trimPrefix obj.key folderKey))

/-- Classification of one pasted folder item in `pasteS3Objects`: a returned
error is recorded and counted, a nil return bumps `successCount`. -/
def pasteFolderItem (resolveRes : Except String String)
    (listRes : Except String (List S3Obj)) (copyRes : String → Option String)
    (pre folderKey : String) : Nat × List String :=
  match copyFolderRecursive resolveRes listRes copyRes pre folderKey with
  | .ok _ => (1, [])
  | .error e => (0, [e])

theorem charListLe_total : ∀ as bs : List Char, charListLe as bs = true ∨ charListLe bs as = true
  | [], _ => Or.inl rfl
  | _ :: _, [] => Or.inr rfl
  | a :: as, b :: bs => by
    rcases Nat.lt_trichotomy a.toNat b.toNat with h | h | h
    · exact Or.inl (by simp [charListLe, h])
    · rcases charListLe_total as bs with ih | ih
      · exact Or.inl (by simp [charListLe, h, ih])
      · exact Or.inr (by simp [charListLe, h.symm, ih])
    · exact Or.inr (by simp [charListLe, h])

theorem charListLe_trans :
    ∀ as bs cs : List Char, charListLe as bs = true → charListLe bs cs = true →
      charListLe as cs = true
  | [], _, _, _, _ => rfl
  | _ :: _, [], _, hab, _ => by simp [charListLe] at hab
  | _ :: _, _ :: _, [], _, hbc => by simp [charListLe] at hbc
  | a :: as, b :: bs, c :: cs, hab, hbc => by
    simp only [charListLe] at hab hbc ⊢
    by_cases h1 : a.toNat < b.toNat
    · by_cases h2 : b.toNat < c.toNat
      · rw [if_pos (by omega)]
      · rw [if_neg h2] at hbc
        by_cases h3 : c.toNat < b.toNat
        · rw [if_pos h3] at hbc
          exact absurd hbc (by simp)
        · rw [if_pos (by omega)]
    · rw [if_neg h1] at hab
      by_cases h4 : b.toNat < a.toNat
      · rw [if_pos h4] at hab
        exact absurd hab (by simp)
      · rw [if_neg h4] at hab
        by_cases h2 : b.toNat < c.toNat
        · rw [if_pos (by omega)]
        · rw [if_neg h2] at hbc
          by_cases h3 : c.toNat < b.toNat
          · rw [if_pos h3] at hbc
            exact absurd hbc (by simp)
          · rw [if_neg h3] at hbc
            rw [if_neg (show ¬a.toNat < c.toNat by omega),
              if_neg (show ¬c.toNat < a.toNat by omega)]
            exact charListLe_trans as bs cs hab hbc

instance : IsTotal S3Obj dispLe where
  total a b := by
    rcases ha : a.isFolder <;> rcases hb : b.isFolder
    · rcases charListLe_total a.name.data b.name.data with h | h
      · exact Or.inl (Or.inr ⟨by rw [ha, hb], h⟩)
      · exact Or.inr (Or.inr ⟨by rw [ha, hb], h⟩)
    · exact Or.inr (Or.inl ⟨hb, ha⟩)
    · exact Or.inl (Or.inl ⟨ha, hb⟩)
    · rcases charListLe_total a.name.data b.name.data with h | h
      · exact Or.inl (Or.inr ⟨by rw [ha, hb], h⟩)
      · exact Or.inr (Or.inr ⟨by rw [ha, hb], h⟩)

instance : IsTrans S3Obj dispLe where
  trans a b c hab hbc := by
    rcases hab with ⟨ha, hb⟩ | ⟨hab, hn⟩
    · rcases hbc with ⟨hb', _⟩ | ⟨hbc, _⟩
      · rw [hb] at hb'; cases hb'
      · exact Or.inl ⟨ha, hbc ▸ hb⟩
    · rcases hbc with ⟨hb', hc⟩ | ⟨hbc, hn'⟩
      · exact Or.inl ⟨hab ▸ hb', hc⟩
      · exact Or.inr ⟨hab.trans hbc, charListLe_trans _ _ _ hn hn'⟩

theorem processFullPage_eq (page : List StoredObject) :
    ∀ acc, processFullPage acc page =
      acc ++ (page.filter
        (fun o => !(strHasSuffix o.key "/" && o.size == 0))).map toFileEntry := by
  induction page with
  | nil => intro acc; simp [processFullPage]
  | cons o rest ih =>
    intro acc
    have hstep : processFullPage acc (o :: rest) =
        processFullPage (fullStep acc o) rest := rfl
    rw [hstep, ih, List.filter_cons]
    cases h : (strHasSuffix o.key "/" && o.size == 0) with
    | true => simp [fullStep, h]
    | false => simp [fullStep, h]

theorem listAllObjectsUnderPrefixFull_eq (pages : List (List StoredObject)) :
    listAllObjectsUnderPrefixFull pages =
      (pages.flatten.filter
        (fun o => !(strHasSuffix o.key "/" && o.size == 0))).map toFileEntry := by
  suffices h : ∀ acc, pages.foldl processFullPage acc =
      acc ++ (pages.flatten.filter
        (fun o => !(strHasSuffix o.key "/" && o.size == 0))).map toFileEntry by
    simpa [listAllObjectsUnderPrefixFull] using h []
  induction pages with
  | nil => intro acc; simp
  | cons page rest ih =>
    intro acc
    simp only [List.foldl_cons, List.flatten_cons, List.filter_append, List.map_append]
    rw [processFullPage_eq, ih]
    simp

/-- The delimiter-less `ListAllObjectsUnderPrefix` revision (client.go) does
implement the intended expansion contract: whenever the paginator's pages
together carry exactly the store objects whose key has the folder's prefix,
the listing contains file-type entries only, and an entry is in it exactly
for each store object under the prefix that is not a zero-byte placeholder
marker — files in arbitrarily nested subfolders included. -/
theorem recursiveExpander_complete
    (store : List StoredObject) (pre : String) (pages : List (List StoredObject))
    (hpag : pages.flatten = store.filter (fun o => strHasPrefix o.key pre)) :
    (∀ e ∈ listAllObjectsUnderPrefixFull pages, e.isFolder = false) ∧
    (∀ e, e ∈ listAllObjectsUnderPrefixFull pages ↔
      ∃ o, o ∈ store ∧ strHasPrefix o.key pre = true ∧
        (strHasSuffix o.key "/" && o.size == 0) = false ∧ e = toFileEntry o) := by
  rw [listAllObjectsUnderPrefixFull_eq, hpag]
  constructor
  · intro e he
    simp only [List.mem_map] at he
    obtain ⟨o, _, rfl⟩ := he
    rfl
  · intro e
    simp only [List.mem_map, List.mem_filter, Bool.not_eq_true']
    constructor
    · rintro ⟨o, ⟨⟨ho, hp⟩, hq⟩, rfl⟩
      exact ⟨o, ho, hp, hq, rfl⟩
    · rintro ⟨o, ho, hp, hq, rfl⟩
      exact ⟨o, ⟨⟨ho, hp⟩, hq⟩, rfl⟩

theorem wrap32_eq_self {z : Int} (h1 : -2 ^ 31 ≤ z) (h2 : z < 2 ^ 31) : wrap32 z = z := by
  unfold wrap32
  have h3 : 0 ≤ z + 2 ^ 31 := by omega
  have h4 : z + 2 ^ 31 < 2 ^ 32 := by omega
  rw [Int.emod_eq_of_lt h3 h4]
  omega

theorem listObjectsSlice_beyond (objs : List S3Obj) (marker : String) (n : Nat)
    (pageSize : Int)
    (hmark : parsePageMarker marker = n)
    (hn : 1 ≤ n) (hps : 0 < pageSize)
    (hbeyond : (objs.length : Int) ≤ ((n : Int) - 1) * pageSize)
    (hfit : ((n : Int) - 1) * pageSize < 2 ^ 31) :
    listObjectsSlice objs marker pageSize = some ([], none) := by
  have hne : marker ≠ "" := by
    intro hm
    subst hm
    have h0 : parsePageMarker "" = 0 := rfl
    rw [h0] at hmark
    omega
  have h0n : (0 : Int) ≤ (n : Int) - 1 := by omega
  have hps1 : (1 : Int) ≤ pageSize := by omega
  have hstep : ((n : Int) - 1) ≤ ((n : Int) - 1) * pageSize :=
    le_mul_of_one_le_right h0n hps1
  have hn1 : wrap32 ((n : Int) - 1) = (n : Int) - 1 :=
    wrap32_eq_self (by omega) (lt_of_le_of_lt hstep hfit)
  have hprod : wrap32 (((n : Int) - 1) * pageSize) = ((n : Int) - 1) * pageSize :=
    wrap32_eq_self
      (le_trans (show (-2 ^ 31 : Int) ≤ 0 by norm_num) (mul_nonneg h0n hps.le)) hfit
  have hlenperm :
      ((objs.filter fun o => o.isFolder) ++ (objs.filter fun o => !o.isFolder)).length =
        objs.length :=
    (List.filter_append_perm (fun o => o.isFolder) objs).length_eq
  have hlen_lt : (objs.length : Int) < 2 ^ 31 := lt_of_le_of_lt hbeyond hfit
  have hwlen : wrap32 (objs.length : Int) = objs.length :=
    wrap32_eq_self (by omega) hlen_lt
  simp only [listObjectsSlice]
  rw [if_neg hne, hmark]
  simp only [hlenperm, hn1, hprod, hwlen]
  rw [if_pos hbeyond]

/-- C2 (amended): with page size 2 over the five entries sorting to
`[B, D, A, C, E]`, the fallback pager returns `[B, D]` with marker `page_2`,
then `[A, C]` with marker `page_3`, then `[E]` with no marker, and the
out-of-range marker `page_4` yields an empty page with no marker; in general
a `page_<n>` marker parses back to the page index `n`, and a marker beyond
the available pages returns an empty page with no next marker provided the
`int32` start-index product `(n-1)*pageSize` does not overflow (stays below
`2^31`). -/
theorem fallbackPager_scenario :
    listObjectsFallback "" c2Pages "" 2 = some ([c2B, c2D], some "page_2") ∧
    listObjectsFallback "" c2Pages "page_2" 2 = some ([c2A, c2C], some "page_3") ∧
    listObjectsFallback "" c2Pages "page_3" 2 = some ([c2E], none) ∧
    listObjectsFallback "" c2Pages "page_4" 2 = some ([], none) ∧
    ∀ (objs : List S3Obj) (marker : String) (n : Nat) (pageSize : Int),
      parsePageMarker marker = n → 1 ≤ n → 0 < pageSize →
      (objs.length : Int) ≤ ((n : Int) - 1) * pageSize →
      ((n : Int) - 1) * pageSize < 2 ^ 31 →
      listObjectsSlice objs marker pageSize = some ([], none) :=
  ⟨by decide, by decide, by decide, by decide, listObjectsSlice_beyond⟩

/-- Witness for C2 (amended) instantiating the beyond-pages rule at marker
`page_7` over a single entry. -/
theorem fallbackPager_scenario_witness :
    parsePageMarker "page_7" = ((7 : Nat) : Int) ∧ 1 ≤ (7 : Nat) ∧ (0 : Int) < 2 ∧
    (([c2A].length : Int) ≤ (((7 : Nat) : Int) - 1) * 2) ∧
    (((7 : Nat) : Int) - 1) * 2 < 2 ^ 31 ∧
    listObjectsSlice [c2A] "page_7" 2 = some ([], none) :=
  ⟨by decide, by decide, by decide, by decide, by decide,
   fallbackPager_scenario.2.2.2.2 [c2A] "page_7" 7 2 (by decide) (by decide) (by decide)
     (by decide) (by decide)⟩

/-- C2 counterexample: the marker `page_2147483649` is beyond the three
available pages of the five-entry scenario, yet the pager does not return an
empty page with no marker — the `int32` start-index arithmetic wraps to 0 and
the first page is returned again, with marker `page_2147483650`. -/
theorem fallbackPager_beyond_overflow_cex :
    ((2147483649 : Int) - 1) * 2 ≥ ((listAllObjectsUnderPrefixDelim "" c2Pages).length : Int) ∧
    parsePageMarker "page_2147483649" = (2147483649 : Int) ∧
    listObjectsFallback "" c2Pages "page_2147483649" 2 =
      some ([c2B, c2D], some "page_2147483650") ∧
    listObjectsFallback "" c2Pages "page_2147483649" 2 ≠ some ([], none) :=
  ⟨by decide, by decide, by decide, by decide⟩

/-- C8: every listing produced for display (the sort closing
`ListAllObjectsUnderPrefix`) is a permutation of its input in which every
folder-type entry precedes every file-type entry and each of the two groups
is ascending by name under the ordinal string order. -/
theorem displaySort_folders_first (l : List S3Obj) :
    (sortDisplayObjects l).Perm l ∧
    (sortDisplayObjects l).Pairwise (fun a b =>
      (b.isFolder = true → a.isFolder = true) ∧
      (a.isFolder = b.isFolder → goStrLe a.name b.name = true)) := by
  refine ⟨List.perm_insertionSort dispLe l, ?_⟩
  have hs : (sortDisplayObjects l).Sorted dispLe := List.sorted_insertionSort dispLe l
  refine hs.imp ?_
  intro a b hab
  rcases hab with ⟨ha, hb⟩ | ⟨hab, hn⟩
  · refine ⟨fun _ => ha, fun heq => ?_⟩
    rw [ha, hb] at heq
    exact absurd heq (by simp)
  · exact ⟨fun hbf => by rw [hab, hbf], fun _ => hn⟩

/-- C5: whenever the HEAD error is the typed `NoSuchKey` error or its message
carries `404`/`NotFound` (not found) or `400`/`BadRequest` (malformed key),
`ObjectExists` answers `false` without surfacing an error, and consequently
the name resolver treats such a key as available and returns it unchanged. -/
theorem objectExists_notFound_badRequest_free
    (key : String) (e : HeadErr) (resp : String → Option HeadErr) (fuel : Nat)
    (h : e.isNoSuchKey = true ∨ strContains e.msg "404" = true ∨
      strContains e.msg "NotFound" = true ∨ strContains e.msg "400" = true ∨
      strContains e.msg "BadRequest" = true)
    (hresp : resp key = some e) :
    objectExists key (resp key) = .ok false ∧
    findAvailableObjectKey (fun k => objectExists k (resp k)) key fuel = .ok (some key) := by
  have hmain : objectExists key (some e) = .ok false := by
    unfold objectExists
    by_cases hk : key = ""
    · simp [hk]
    · rw [if_neg hk]
      by_cases h1 : e.isNoSuchKey = true
      · simp [h1]
      · replace h1 : e.isNoSuchKey = false := by simpa using h1
        by_cases h2 : (strContains e.msg "404" || strContains e.msg "NotFound") = true
        · simp [h1, h2]
        · replace h2 : (strContains e.msg "404" || strContains e.msg "NotFound") = false := by
            simpa using h2
          by_cases h3 : (strContains e.msg "400" || strContains e.msg "BadRequest") = true
          · simp [h1, h2, h3]
          · exfalso
            simp only [Bool.or_eq_false_iff] at h2
            simp only [Bool.or_eq_true, not_or, Bool.not_eq_true] at h3
            rcases h with h | h | h | h | h <;> simp_all
  refine ⟨by rw [hresp]; exact hmain, ?_⟩
  simp only [findAvailableObjectKey]
  rw [hresp, hmain]

/-- Witness for C5: a key the backend rejects with `400 BadRequest` is
reported absent and the resolver keeps it unchanged. -/
theorem objectExists_notFound_badRequest_free_witness :
    ((⟨false, "https response error StatusCode: 400, BadRequest"⟩ : HeadErr).isNoSuchKey = true ∨
      strContains (HeadErr.msg ⟨false, "https response error StatusCode: 400, BadRequest"⟩) "404" = true ∨
      strContains (HeadErr.msg ⟨false, "https response error StatusCode: 400, BadRequest"⟩) "NotFound" = true ∨
      strContains (HeadErr.msg ⟨false, "https response error StatusCode: 400, BadRequest"⟩) "400" = true ∨
      strContains (HeadErr.msg ⟨false, "https response error StatusCode: 400, BadRequest"⟩) "BadRequest" = true) ∧
    objectExists "weird??key"
      ((fun _ => some (⟨false, "https response error StatusCode: 400, BadRequest"⟩ : HeadErr)) "weird??key") = .ok false ∧
    findAvailableObjectKey
      (fun k => objectExists k
        ((fun _ => some (⟨false, "https response error StatusCode: 400, BadRequest"⟩ : HeadErr)) k))
      "weird??key" 3 = .ok (some "weird??key") := by
  have h := objectExists_notFound_badRequest_free "weird??key"
    ⟨false, "https response error StatusCode: 400, BadRequest"⟩
    (fun _ => some ⟨false, "https response error StatusCode: 400, BadRequest"⟩) 3
    (by right; right; right; left; decide) rfl
  exact ⟨by right; right; right; left; decide, h.1, h.2⟩

theorem findAvailableObjectKeyLoop_least (probe : String → Except String Bool)
    (base ext : String) (n : Nat)
    (hfree : probe (numberedKey base n ext) = .ok false)
    (htaken : ∀ j, 1 ≤ j → j < n → probe (numberedKey base j ext) = .ok true) :
    ∀ fuel i, 1 ≤ i → i ≤ n → n - i < fuel →
      findAvailableObjectKeyLoop probe base ext i fuel = .ok (some (numberedKey base n ext)) := by
  intro fuel
  induction fuel with
  | zero => intro i _ _ h3; omega
  | succ fuel ih =>
    intro i h1 h2 h3
    by_cases hin : i = n
    · subst hin
      simp only [findAvailableObjectKeyLoop, hfree]
    · have hlt : i < n := lt_of_le_of_ne h2 hin
      have ht := htaken i h1 hlt
      simp only [findAvailableObjectKeyLoop, ht]
      exact ih (i + 1) (by omega) (by omega) (by omega)

/-- C6: when the target key exists and `base(1)ext, …, base(n-1)ext` all
exist while `base(n)ext` is free, the resolver returns `base(n)ext`, the
counter appended to the base and extension of the original key (never
nested); in particular an existing `report.txt` resolves to `report(1).txt`,
and to `report(2).txt` when that also exists (see the witness). -/
theorem findAvailableObjectKey_least (probe : String → Except String Bool)
    (s3Key : String) (n fuel : Nat)
    (hn : 1 ≤ n) (hfuel : n ≤ fuel)
    (h0 : probe s3Key = .ok true)
    (htaken : ∀ j, 1 ≤ j → j < n →
      probe (numberedKey (keyBase s3Key) j (filepathExt s3Key)) = .ok true)
    (hfree : probe (numberedKey (keyBase s3Key) n (filepathExt s3Key)) = .ok false) :
    findAvailableObjectKey probe s3Key fuel =
      .ok (some (numberedKey (keyBase s3Key) n (filepathExt s3Key))) := by
  simp only [findAvailableObjectKey, h0]
  exact findAvailableObjectKeyLoop_least probe _ _ n hfree htaken fuel 1 le_rfl hn (by omega)

/-- Witness for C6: the `report.txt` scenario, at collision depths 1 and 2. -/
theorem findAvailableObjectKey_least_witness :
    findAvailableObjectKey (fun k => .ok (k == "report.txt")) "report.txt" 5 =
      .ok (some "report(1).txt") ∧
    findAvailableObjectKey (fun k => .ok (k == "report.txt" || k == "report(1).txt"))
      "report.txt" 5 = .ok (some "report(2).txt") := by
  constructor
  · have h := findAvailableObjectKey_least (fun k => .ok (k == "report.txt"))
      "report.txt" 1 5 le_rfl (by omega) rfl
      (fun j h1 h2 => absurd (h1.trans_lt h2) (lt_irrefl 1)) rfl
    have he : numberedKey (keyBase "report.txt") 1 (filepathExt "report.txt") =
        "report(1).txt" := rfl
    rw [he] at h
    exact h
  · have h := findAvailableObjectKey_least
      (fun k => .ok (k == "report.txt" || k == "report(1).txt"))
      "report.txt" 2 5 (by omega) (by omega) rfl
      (fun j h1 h2 => by
        have hj : j = 1 := by omega
        subst hj
        rfl) rfl
    have he : numberedKey (keyBase "report.txt") 2 (filepathExt "report.txt") =
        "report(2).txt" := rfl
    rw [he] at h
    exact h

/-- C7: the resolver is idempotent on an already-available name, for object
keys (existence probe reports the key free) and for folder names (the listing
under the folder prefix is empty and no marker object exists). -/
theorem nameResolver_idempotent_on_free
    (probe : String → Except String Bool) (key : String)
    (listAll : String → Except String (List S3Obj))
    (objExists : String → Except String Bool)
    (pre baseName : String) (l : List S3Obj) (fuel fuel' : Nat)
    (hfree : probe key = .ok false)
    (hlist : listAll (pre ++ baseName ++ "/") = .ok l) (hl : l.length = 0)
    (hex : objExists (pre ++ baseName ++ "/") = .ok false) :
    findAvailableObjectKey probe key fuel = .ok (some key) ∧
    findAvailableFolderName listAll objExists pre baseName fuel' = .ok (some baseName) := by
  constructor
  · simp only [findAvailableObjectKey, hfree]
  · simp only [findAvailableFolderName, hlist, hex]
    simp [hl]

/-- Witness for C7 with a probe that reports everything free. -/
theorem nameResolver_idempotent_on_free_witness :
    findAvailableObjectKey (fun _ => .ok false) "report.txt" 3 = .ok (some "report.txt") ∧
    findAvailableFolderName (fun _ => .ok []) (fun _ => .ok false) "docs/" "photos" 3 =
      .ok (some "photos") :=
  nameResolver_idempotent_on_free (fun _ => .ok false) "report.txt"
    (fun _ => .ok []) (fun _ => .ok false) "docs/" "photos" [] 3 3 rfl rfl rfl rfl

/-- The delimiter-less listing contract at a concrete nested store and a
concrete two-page pagination. -/
theorem recursiveExpander_complete_witness :
    (c3Pages.flatten = c3Store.filter (fun o => strHasPrefix o.key "f/")) ∧
    ((∀ e ∈ listAllObjectsUnderPrefixFull c3Pages, e.isFolder = false) ∧
     (∀ e, e ∈ listAllObjectsUnderPrefixFull c3Pages ↔
       ∃ o, o ∈ c3Store ∧ strHasPrefix o.key "f/" = true ∧
         (strHasSuffix o.key "/" && o.size == 0) = false ∧ e = toFileEntry o)) :=
  ⟨by decide, recursiveExpander_complete c3Store "f/" c3Pages (by decide)⟩

/-- C3: the expansion actually used for download/copy totals is part_002's
delimiter-based `ListAllObjectsUnderPrefix`, and it is not complete.  On the
store `c3Store` — folder `f/` holding the immediate file `f/a.txt` (3 bytes)
and the nested file `f/sub/b.txt` (5 bytes) — the delimiter answer groups the
subfolder into a common prefix, so the listing never contains the nested key,
the download folder scan keeps only `f/a.txt` and totals 3 bytes instead
of 8; yet the store does hold the non-placeholder nested file under the
prefix, and the delimiter-less revision (client.go), matching the functions'
own recursive-listing doc comments, returns it — the claim states the
intended contract and the operative code breaks it. -/
theorem recursiveExpander_misses_nested_files :
    delimAnswer c3Store "f/" = ⟨["f/sub/"], [⟨"f/", 0, "t0"⟩, ⟨"f/a.txt", 3, "t1"⟩]⟩ ∧
    downloadScanFolderFiles "f/" [delimAnswer c3Store "f/"] =
      [⟨"a.txt", "f/a.txt", false, 3, "t1"⟩] ∧
    ((downloadScanFolderFiles "f/" [delimAnswer c3Store "f/"]).map (fun e => e.size)).sum = 3 ∧
    (∀ e ∈ listAllObjectsUnderPrefixDelim "f/" [delimAnswer c3Store "f/"],
      e.key ≠ "f/sub/b.txt") ∧
    (∃ o ∈ c3Store, strHasPrefix o.key "f/" = true ∧
      (strHasSuffix o.key "/" && o.size == 0) = false ∧ o.key = "f/sub/b.txt" ∧ o.size = 5) ∧
    c3Pages.flatten = c3Store.filter (fun o => strHasPrefix o.key "f/") ∧
    (∃ e ∈ listAllObjectsUnderPrefixFull c3Pages, e.key = "f/sub/b.txt" ∧ e.size = 5) :=
  ⟨by decide, by decide, by decide, by decide, by decide, by decide, by decide⟩

theorem progressTrackerRead_eq (counter n : Nat) :
    progressTrackerRead counter n = counter + n := by
  unfold progressTrackerRead
  split <;> omega

theorem trackReads_eq (reads : List Nat) :
    ∀ counter, trackReads counter reads = counter + reads.sum := by
  induction reads with
  | nil => intro c; simp [trackReads]
  | cons n rest ih =>
    intro c
    have hstep : trackReads c (n :: rest) = trackReads (progressTrackerRead c n) rest := rfl
    rw [hstep, ih, progressTrackerRead_eq, List.sum_cons]
    omega

theorem runUploadBatch_eq (items : List (UploadFileItem × PutOutcome)) :
    ∀ counter failed, runUploadBatch counter failed items =
      (counter + (items.map fun p => putBytesRead p.1 p.2).sum,
       failed ++ (items.filter fun p => isPutFailure p.2).map (fun p => p.1.baseName)) := by
  induction items with
  | nil => intro c f; simp [runUploadBatch]
  | cons p rest ih =>
    intro c f
    obtain ⟨it, outcome⟩ := p
    cases outcome with
    | success =>
      simp only [runUploadBatch, uploadSingleFile]
      rw [ih, trackReads_eq]
      simp [putBytesRead, isPutFailure, List.filter_cons]
      omega
    | failure reads msg =>
      simp only [runUploadBatch, uploadSingleFile]
      rw [ih, trackReads_eq]
      simp [putBytesRead, isPutFailure, List.filter_cons]
      omega

/-- C1 (amended): a batch of uploads always runs to completion and the
failure list records exactly the failed items, but the shared
transferred-byte counter advances as each item's reader is consumed
(`ProgressTracker.Read`), not on item success: after the batch it equals the
total bytes read across all items — a successful item contributes exactly
its size, a failed item contributes whatever the SDK read before the error
(anywhere from zero to its full size) — so it equals the sum of the
successful items' sizes only when the failed items' readers were never
read. -/
theorem uploadBatch_progress (items : List (UploadFileItem × PutOutcome)) :
    (runUploadBatch 0 [] items).1 = (items.map fun p => putBytesRead p.1 p.2).sum ∧
    (runUploadBatch 0 [] items).2 =
      (items.filter fun p => isPutFailure p.2).map (fun p => p.1.baseName) := by
  rw [runUploadBatch_eq items 0 []]
  exact ⟨Nat.zero_add _, List.nil_append _⟩

/-- C1 counterexample: three uploads of 100, 50 and 200 bytes where item 2
fails with a network error after the SDK consumed its body.  The batch
completes and the failure list is exactly `["file2"]`, yet the shared counter
ends at 350, not at 100 + 200: bytes are added at read time, not on
success. -/
theorem uploadCounter_counts_failed_reads_cex :
    (runUploadBatch 0 [] c1Items).2 = ["file2"] ∧
    (runUploadBatch 0 [] c1Items).1 = 350 ∧
    (runUploadBatch 0 [] c1Items).1 ≠ 100 + 200 :=
  ⟨by decide, by decide, by decide⟩

theorem deleteLoopAux_fst (del : String → Option String) :
    ∀ (l : List String) st, (deleteLoopAux del l st).1 = st.1 ++ l := by
  intro l
  induction l with
  | nil => intro st; simp [deleteLoopAux]
  | cons key rest ih =>
    intro st
    simp only [deleteLoopAux]
    rw [ih]
    simp

theorem deleteLoopAux_errs (del : String → Option String) :
    ∀ (l : List String) st, ((deleteLoopAux del l st).2 = [] ↔
      st.2 = [] ∧ ∀ k ∈ l, del k = none) := by
  intro l
  induction l with
  | nil => intro st; simp [deleteLoopAux]
  | cons key rest ih =>
    intro st
    simp only [deleteLoopAux]
    rw [ih]
    cases hk : del key with
    | none => simp [hk]
    | some e =>
      simp only [hk, List.mem_cons]
      constructor
      · rintro ⟨h1, -⟩
        by_cases h2 : st.2.length = 0
        · rw [if_pos h2] at h1
          simp at h1
        · rw [if_neg h2] at h1
          rw [h1] at h2
          simp at h2
      · rintro ⟨-, hall⟩
        exact absurd (hall key (Or.inl rfl)) (by simp [hk])

theorem deleteLoopAux_errs_pos (del : String → Option String) (l : List String) :
    (0 < (deleteLoopAux del l ([], [])).2.length) ↔ ∃ k ∈ l, (del k).isSome = true := by
  rw [List.length_pos, ne_eq, deleteLoopAux_errs]
  push_neg
  constructor
  · intro h
    obtain ⟨k, hk, hne⟩ := h rfl
    exact ⟨k, hk, Option.isSome_iff_ne_none.mpr hne⟩
  · rintro ⟨k, hk, hsome⟩ _
    exact ⟨k, hk, Option.isSome_iff_ne_none.mp hsome⟩

/-- C4: for every batch (upload, download, delete), the worker loop processes
every queued item even after failures, and the failure collection at batch
completion holds exactly the names of the items that failed (the full set);
for a folder delete item, every constituent key (the listing plus the folder
marker itself) is attempted, and the item is reported failed iff some
constituent deletion failed. -/
theorem batch_failures_complete {A : Type} (run : A → Option String) (nameOf : A → String)
    (items : List A) (keys : List String) (pre : String) (del : String → Option String) :
    (runWorkerLoop run nameOf items).1 = items ∧
    (runWorkerLoop run nameOf items).2 =
      (items.filter fun it => (run it).isSome).map nameOf ∧
    ∃ failed : Bool,
      deleteFolderAndContents (.ok keys) pre del = .ok (keys ++ [pre], failed) ∧
      (failed = true ↔ ∃ k ∈ keys ++ [pre], (del k).isSome = true) := by
  refine ⟨?_, ?_, ?_⟩
  · induction items with
    | nil => rfl
    | cons it rest ih =>
      simp only [runWorkerLoop]
      cases run it <;> simp [ih]
  · induction items with
    | nil => rfl
    | cons it rest ih =>
      simp only [runWorkerLoop]
      cases hr : run it <;> simp [hr, List.filter_cons, ih]
  · refine ⟨decide (0 < (deleteLoopAux del (keys ++ [pre]) ([], [])).2.length), ?_, ?_⟩
    · simp only [deleteFolderAndContents]
      rw [deleteLoopAux_fst del (keys ++ [pre]) ([], [])]
      rfl
    · rw [decide_eq_true_iff]
      exact deleteLoopAux_errs_pos del (keys ++ [pre])

/-- The error message carried by an upload scan outcome, if it is one. -/
theorem uploadScan_fst (results : List UploadScanResult) :
    ∀ st, (results.foldl uploadScanStep st).1 =
      st.1 ++ results.filterMap (fun r =>
        match r with
        | .err m => some m
        | _ => none) := by
  induction results with
  | nil => intro st; simp
  | cons r rest ih =>
    intro st
    cases r with
    | err m => simp [uploadScanStep, ih, List.filterMap_cons]
    | file key size => simp [uploadScanStep, ih, List.filterMap_cons]
    | folder fkeys files => simp [uploadScanStep, ih, List.filterMap_cons]

theorem downloadScan_fst (results : List DownloadScanResult) :
    ∀ st, (results.foldl downloadScanStep st).1 =
      st.1 ++ results.filterMap (fun r =>
        match r with
        | .err m => some m
        | _ => none) := by
  induction results with
  | nil => intro st; simp
  | cons r rest ih =>
    intro st
    cases r with
    | err m => simp [downloadScanStep, ih, List.filterMap_cons]
    | files fs => simp [downloadScanStep, ih, List.filterMap_cons]

/-- C9: when any error is collected during the scan phase (stat/walk or name
resolution for upload; folder enumeration for download), the whole batch is
aborted before any transfer or mutation: the execute phase performs no store
or filesystem action at all. -/
theorem scanError_aborts_batch (uresults : List UploadScanResult)
    (dresults : List DownloadScanResult) (mu md : String)
    (hu : UploadScanResult.err mu ∈ uresults)
    (hd : DownloadScanResult.err md ∈ dresults) :
    startUploadActions uresults = [] ∧ startDownloadActions dresults = [] := by
  constructor
  · unfold startUploadActions uploadScan
    rw [if_pos ?_]
    rw [uploadScan_fst]
    have : mu ∈ (uresults.filterMap (fun r =>
        match r with
        | .err m => some m
        | _ => none)) := List.mem_filterMap.mpr ⟨.err mu, hu, rfl⟩
    simp only [List.nil_append, List.length_pos]
    intro hcon
    rw [hcon] at this
    exact absurd this (List.not_mem_nil mu)
  · unfold startDownloadActions downloadScan
    rw [if_pos ?_]
    rw [downloadScan_fst]
    have : md ∈ (dresults.filterMap (fun r =>
        match r with
        | .err m => some m
        | _ => none)) := List.mem_filterMap.mpr ⟨.err md, hd, rfl⟩
    simp only [List.nil_append, List.length_pos]
    intro hcon
    rw [hcon] at this
    exact absurd this (List.not_mem_nil md)

/-- Witness for C9: one failed stat and one failed folder enumeration abort
their batches with no action taken. -/
theorem scanError_aborts_batch_witness :
    UploadScanResult.err "stat failed" ∈
      [UploadScanResult.err "stat failed", UploadScanResult.file "a.txt" 3] ∧
    DownloadScanResult.err "list folder failed" ∈
      [DownloadScanResult.files [("k", "p")], DownloadScanResult.err "list folder failed"] ∧
    startUploadActions [UploadScanResult.err "stat failed", UploadScanResult.file "a.txt" 3] = [] ∧
    startDownloadActions
      [DownloadScanResult.files [("k", "p")], DownloadScanResult.err "list folder failed"] = [] := by
  have h := scanError_aborts_batch
    [UploadScanResult.err "stat failed", UploadScanResult.file "a.txt" 3]
    [DownloadScanResult.files [("k", "p")], DownloadScanResult.err "list folder failed"]
    "stat failed" "list folder failed" (by decide) (by decide)
  exact ⟨by decide, by decide, h.1, h.2⟩

/-- C10: once the destination folder name resolves and the source listing
succeeds, `copyFolderRecursive` returns success unconditionally — the result
does not depend on the per-constituent copy outcomes (they are only logged) —
and `pasteS3Objects` therefore counts the pasted folder as one success with
nothing added to the failure report, even when every constituent copy
failed. -/
theorem copyFolder_success_unconditional (pre folderKey availableName : String)
    (objs : List S3Obj) (copyRes : String → Option String) :
    copyFolderRecursive (.ok availableName) (.ok objs) copyRes pre folderKey =
      .ok (objs.map fun obj =>
        (obj.key, (pre ++ availableName ++ "/") ++ trimPrefix obj.key folderKey)) ∧
    pasteFolderItem (.ok availableName) (.ok objs) copyRes pre folderKey = (1, []) := by
  constructor
  · rfl
  · rfl

end S3Explorer
